import Mathlib

/-!
Verification development for the axis-configuration core of the repository:
scale registry (forward/inverse transform pairs), locator resolution (tick
placement), formatter resolution (tick labels), and dual-axis binding.

The repository ships only documentation/demo scripts; the resolver and scale
machinery itself is described by the specification.  The numeric machinery is
therefore modelled from the spec: tick/locator/formatter/dual-axis plumbing is
embedded over `ℚ` (exact rational arithmetic standing in for the floats of the
implementation, keeping every check decidable), while the transcendental scale
transforms are embedded over `ℝ`.
-/

namespace AxisSpec

/-! ## Transform pairs over ℚ and fail-fast construction -/

/-- Modelled from the spec: `TransformPair` is a forward/inverse numeric
mapping; here over exact rationals for the decidable construction checks. -/
structure TransformPairQ where
  forward : ℚ → ℚ
  inverse : ℚ → ℚ

/-- Modelled from the spec: the `1e-9` relative tolerance used by round-trip
validation. -/
def tol : ℚ := 1 / 1000000000

/-- Modelled from the spec: `a` equals `b` within relative tolerance `tol`. -/
def relClose (a b : ℚ) : Prop := |a - b| ≤ tol * max |b| 1

instance (a b : ℚ) : Decidable (relClose a b) := by
  unfold relClose; infer_instance

/-- Modelled from the spec: the sample points used by construction-time
validation — at least 3 points spanning the current limits. -/
def samplePoints (lo hi : ℚ) : List ℚ := [lo, (lo + hi) / 2, hi]

/-- Modelled from the spec: a function is monotonic over the sampled domain
when its values are strictly increasing or strictly decreasing along the
sample points. -/
def monoOnSamples (f : ℚ → ℚ) (lo hi : ℚ) : Prop :=
  List.Chain' (fun a b => f a < f b) (samplePoints lo hi) ∨
    List.Chain' (fun a b => f b < f a) (samplePoints lo hi)

instance (f : ℚ → ℚ) (lo hi : ℚ) : Decidable (monoOnSamples f lo hi) := by
  unfold monoOnSamples; infer_instance

/-- Errors raised by transform-pair construction. -/
inductive TransformError where
  | invalidTransform
  | nonInvertible
  deriving DecidableEq, Repr

/-- Modelled from the spec: `NumericInverseTransform` — derive an inverse for
a monotonically increasing forward function by bisection root-finding on
`[lo, hi]`, with a fixed iteration budget. -/
def bisectInverse (f : ℚ → ℚ) (y : ℚ) : ℚ → ℚ → ℕ → ℚ
  | lo, hi, 0 => (lo + hi) / 2
  | lo, hi, n + 1 =>
    if f ((lo + hi) / 2) ≤ y then bisectInverse f y ((lo + hi) / 2) hi n
    else bisectInverse f y lo ((lo + hi) / 2) n

/-- Modelled from the spec: the numerical inverse obtained by monotonic
root-finding over the sampled domain. -/
def numericInverse (f : ℚ → ℚ) (lo hi : ℚ) : ℚ → ℚ :=
  fun y => bisectInverse f y lo hi 64

/-- Modelled from the spec: `TransformPair.make_from_functions`.  With an
explicit inverse it validates the round-trip invariant on the sample points
and fails fast with `InvalidTransformError` on violation; with only a forward
function it derives the inverse by monotonic root-finding, failing with
`NonInvertibleError` exactly when the forward function is not monotonic over
the sampled domain. -/
def make_from_functions (f : ℚ → ℚ) (inv : Option (ℚ → ℚ)) (lo hi : ℚ) :
    Except TransformError TransformPairQ :=
  match inv with
  | some g =>
    if (samplePoints lo hi).all fun s => decide (relClose (g (f s)) s) then
      .ok ⟨f, g⟩
    else
      .error .invalidTransform
  | none =>
    if monoOnSamples f lo hi then
      .ok ⟨f, numericInverse f lo hi⟩
    else
      .error .nonInvertible

/-! ## Locator resolution over ℚ -/

/-- Modelled from the spec: `LocatorSpec`, a tagged union over locator request
shapes (the tags required by the claims under study). -/
inductive LocatorSpec where
  | numeric (step : ℚ)
  | fixedList (vals : List ℚ)
  | maxn (n : ℕ)
  deriving Repr

/-- Errors raised by locator resolution. -/
inductive LocError where
  | emptyRange
  deriving DecidableEq, Repr

/-- Modelled from the spec: ticks at every integer multiple of `step` lying
within `[lo, hi]`, endpoint-inclusive when an endpoint lands exactly on a
multiple. -/
def multiplesIn (step lo hi : ℚ) : List ℚ :=
  (List.range (⌊hi / step⌋ - ⌈lo / step⌉ + 1).toNat).map
    fun i : ℕ => ((⌈lo / step⌉ + (i : ℤ) : ℤ) : ℚ) * step

/-- Modelled from the spec: ten to an integer power, as a rational. -/
def pow10 (k : ℤ) : ℚ := (10 : ℚ) ^ k

/-- Modelled from the spec: the "nice" steps are 1, 2 or 5 times a power of
ten. -/
def IsNiceStep (s : ℚ) : Prop :=
  ∃ k : ℤ, s = pow10 k ∨ s = 2 * pow10 k ∨ s = 5 * pow10 k

/-- Modelled from the spec: the nice step chosen for a `maxn` locator — the
smallest step of the form 1, 2 or 5 times a power of ten that is at least
`q = (limits.max - limits.min) / n`. -/
def chooseNiceStep (q : ℚ) : ℚ :=
  if q ≤ pow10 (Int.log 10 q) then pow10 (Int.log 10 q)
  else if q ≤ 2 * pow10 (Int.log 10 q) then 2 * pow10 (Int.log 10 q)
  else if q ≤ 5 * pow10 (Int.log 10 q) then 5 * pow10 (Int.log 10 q)
  else 10 * pow10 (Int.log 10 q)

namespace LocatorResolver

/-- Modelled from the spec: `LocatorResolver.resolve` normalizes a locator
request against the axis limits, failing with `EmptyRangeError` on an empty
range; `Numeric(step)` yields the multiples of `step` within the limits,
`FixedList` the given values as-is, and `maxn n` the multiples of the chosen
nice step. -/
def resolve (spec : LocatorSpec) (lo hi : ℚ) : Except LocError (List ℚ) :=
  if hi ≤ lo then .error .emptyRange
  else
    match spec with
    | .numeric step => .ok (multiplesIn step lo hi)
    | .fixedList vals => .ok vals
    | .maxn n => .ok (multiplesIn (chooseNiceStep ((hi - lo) / n)) lo hi)

end LocatorResolver

lemma mem_multiplesIn {step lo hi x : ℚ} (hstep : 0 < step) :
    x ∈ multiplesIn step lo hi ↔ (∃ k : ℤ, x = k * step) ∧ lo ≤ x ∧ x ≤ hi := by
  unfold multiplesIn
  simp only [List.mem_map, List.mem_range]
  constructor
  · rintro ⟨i, hilt, rfl⟩
    have hib : (⌈lo / step⌉ + i : ℤ) ≤ ⌊hi / step⌋ := by
      have := Int.lt_toNat.mp hilt
      omega
    have hia : lo / step ≤ ((⌈lo / step⌉ + i : ℤ) : ℚ) := by
      have h1 := Int.le_ceil (lo / step)
      have h2 : ((⌈lo / step⌉ : ℤ) : ℚ) ≤ ((⌈lo / step⌉ + i : ℤ) : ℚ) := by
        push_cast
        linarith [Nat.cast_nonneg (α := ℚ) i]
      linarith
    refine ⟨⟨⌈lo / step⌉ + i, rfl⟩, ?_, ?_⟩
    · exact (div_le_iff₀ hstep).mp hia
    · have : ((⌈lo / step⌉ + i : ℤ) : ℚ) ≤ hi / step := by
        calc ((⌈lo / step⌉ + i : ℤ) : ℚ) ≤ (⌊hi / step⌋ : ℚ) := by exact_mod_cast hib
        _ ≤ hi / step := Int.floor_le _
      exact (le_div_iff₀ hstep).mp this
  · rintro ⟨⟨k, rfl⟩, hlo, hhi⟩
    have hka : ⌈lo / step⌉ ≤ k := Int.ceil_le.mpr ((div_le_iff₀ hstep).mpr hlo)
    have hkb : k ≤ ⌊hi / step⌋ := Int.le_floor.mpr ((le_div_iff₀ hstep).mpr hhi)
    refine ⟨(k - ⌈lo / step⌉).toNat, ?_, ?_⟩
    · rw [Int.lt_toNat]
      omega
    · have : (⌈lo / step⌉ + ((k - ⌈lo / step⌉).toNat : ℤ)) = k := by omega
      rw [this]

lemma length_multiplesIn {step lo hi : ℚ} {n : ℕ}
    (hn : (hi - lo) / step ≤ n) : (multiplesIn step lo hi).length ≤ n + 1 := by
  unfold multiplesIn
  rw [List.length_map, List.length_range]
  have ha : lo / step ≤ (⌈lo / step⌉ : ℚ) := Int.le_ceil _
  have hb : (⌊hi / step⌋ : ℚ) ≤ hi / step := Int.floor_le _
  have hspan : (⌊hi / step⌋ : ℚ) - ⌈lo / step⌉ ≤ n := by
    have : hi / step - lo / step = (hi - lo) / step := by ring
    linarith
  have hz : (⌊hi / step⌋ - ⌈lo / step⌉ : ℤ) ≤ n := by exact_mod_cast hspan
  omega

lemma pow10_pos (k : ℤ) : 0 < pow10 k := zpow_pos (by norm_num) k

lemma pow10_add_one (k : ℤ) : pow10 (k + 1) = 10 * pow10 k := by
  unfold pow10
  rw [zpow_add_one₀ (by norm_num)]
  ring

lemma pow10_mono {j k : ℤ} (h : j ≤ k) : pow10 j ≤ pow10 k :=
  zpow_le_zpow_right₀ (by norm_num) h

lemma pow10_log_le {q : ℚ} (hq : 0 < q) : pow10 (Int.log 10 q) ≤ q := by
  unfold pow10
  exact_mod_cast Int.zpow_log_le_self (b := 10) (by norm_num) hq

lemma lt_pow10_log_succ (q : ℚ) : q < pow10 (Int.log 10 q + 1) := by
  unfold pow10
  exact_mod_cast Int.lt_zpow_succ_log_self (b := 10) (by norm_num) q

lemma chooseNiceStep_pos (q : ℚ) : 0 < chooseNiceStep q := by
  unfold chooseNiceStep pow10
  split_ifs <;> positivity

lemma le_chooseNiceStep {q : ℚ} : q ≤ chooseNiceStep q := by
  unfold chooseNiceStep
  split_ifs with h1 h2 h3
  · exact h1
  · exact h2
  · exact h3
  · have h4 := lt_pow10_log_succ q
    rw [pow10_add_one] at h4
    exact le_of_lt h4

lemma chooseNiceStep_le (q : ℚ) : chooseNiceStep q ≤ 10 * pow10 (Int.log 10 q) := by
  have hp := pow10_pos (Int.log 10 q)
  unfold chooseNiceStep
  split_ifs <;> nlinarith

lemma chooseNiceStep_nice (q : ℚ) : IsNiceStep (chooseNiceStep q) := by
  unfold chooseNiceStep
  split_ifs
  · exact ⟨Int.log 10 q, Or.inl rfl⟩
  · exact ⟨Int.log 10 q, Or.inr (Or.inl rfl)⟩
  · exact ⟨Int.log 10 q, Or.inr (Or.inr rfl)⟩
  · exact ⟨Int.log 10 q + 1, Or.inl (pow10_add_one (Int.log 10 q)).symm⟩

lemma chooseNiceStep_min {q s : ℚ} (hq : 0 < q) (hs : IsNiceStep s)
    (hqs : q ≤ s) : chooseNiceStep q ≤ s := by
  obtain ⟨j, hj⟩ := hs
  have hbl : pow10 (Int.log 10 q) ≤ q := pow10_log_le hq
  have hbu : q < pow10 (Int.log 10 q + 1) := lt_pow10_log_succ q
  have hpj := pow10_pos j
  have hpK := pow10_pos (Int.log 10 q)
  rcases lt_trichotomy j (Int.log 10 q) with hlt | heq | hgt
  · -- smaller exponent: s < pow10 (log q) ≤ q, contradicting q ≤ s
    exfalso
    have hj1 : pow10 j ≤ pow10 (Int.log 10 q - 1) := pow10_mono (by omega)
    have hK : pow10 (Int.log 10 q) = 10 * pow10 (Int.log 10 q - 1) := by
      have := pow10_add_one (Int.log 10 q - 1)
      rw [show Int.log 10 q - 1 + 1 = Int.log 10 q by omega] at this
      exact this
    have hpK1 := pow10_pos (Int.log 10 q - 1)
    rcases hj with rfl | rfl | rfl <;> nlinarith
  · subst heq
    unfold chooseNiceStep
    rcases hj with rfl | rfl | rfl <;> split_ifs <;> nlinarith
  · have hj1 : pow10 (Int.log 10 q + 1) ≤ pow10 j := pow10_mono (by omega)
    have hc := chooseNiceStep_le q
    rw [← pow10_add_one] at hc
    rcases hj with rfl | rfl | rfl <;> nlinarith

lemma log10_half : Int.log 10 ((1 : ℚ) / 2) = -1 := by
  have h1 : pow10 (Int.log 10 ((1 : ℚ) / 2)) ≤ 1 / 2 := pow10_log_le (by norm_num)
  have h2 : (1 : ℚ) / 2 < pow10 (Int.log 10 ((1 : ℚ) / 2) + 1) :=
    lt_pow10_log_succ _
  by_contra hne
  rcases lt_or_gt_of_ne hne with hlt | hgt
  · have : pow10 (Int.log 10 ((1 : ℚ) / 2) + 1) ≤ pow10 0 := pow10_mono (by omega)
    rw [show pow10 0 = 1 by norm_num [pow10]] at this
    have : (1 : ℚ) / 2 < 1 / 10 := by
      have h3 : pow10 (Int.log 10 ((1 : ℚ) / 2) + 1) ≤ pow10 (-1) :=
        pow10_mono (by omega)
      rw [show pow10 (-1) = 1 / 10 by norm_num [pow10]] at h3
      linarith
    norm_num at this
  · have h3 : pow10 0 ≤ pow10 (Int.log 10 ((1 : ℚ) / 2)) := pow10_mono (by omega)
    rw [show pow10 0 = 1 by norm_num [pow10]] at h3
    linarith

lemma chooseNiceStep_half : chooseNiceStep ((1 : ℚ) / 2) = 1 / 2 := by
  unfold chooseNiceStep
  rw [log10_half, show pow10 (-1) = 1 / 10 by norm_num [pow10]]
  norm_num

/-! ## Cutoff scales and discontinuity-aware tick placement -/

/-- Modelled from the spec: a cutoff segment's scale factor — a multiplicative
compression factor, or `infinity` marking a hard discrete jump. -/
inductive CutoffFactor where
  | finite (f : ℚ)
  | inf
  deriving DecidableEq, Repr

/-- Modelled from the spec: one cutoff segment — a cutoff location together
with the scale factor applied beyond it. -/
structure CutoffSeg where
  point : ℚ
  factor : CutoffFactor
  deriving DecidableEq, Repr

/-- Modelled from the spec: a built cutoff scale, holding its validated
segments. -/
structure CutoffScale where
  segs : List CutoffSeg
  deriving DecidableEq, Repr

/-- Errors raised by cutoff-scale construction. -/
inductive CutoffError where
  | invalidParameter
  deriving DecidableEq, Repr

/-- Modelled from the spec: build a cutoff scale from its segments, failing
with `InvalidParameterError` unless the cutoff locations are strictly
increasing. -/
def buildCutoff (segs : List CutoffSeg) : Except CutoffError CutoffScale :=
  if List.Chain' (fun a b => a.point < b.point) segs then .ok ⟨segs⟩
  else .error .invalidParameter

/-- Modelled from the spec: the discontinuity locations of a cutoff scale —
the cutoff points whose scale factor is `infinity`. -/
def CutoffScale.discontinuities (s : CutoffScale) : List ℚ :=
  s.segs.filterMap fun seg =>
    if seg.factor = CutoffFactor.inf then some seg.point else none

/-- Modelled from the spec: locator resolution against a cutoff scale — the
locator machinery must never place a tick exactly on a discontinuity of the
forward map, so resolved positions landing there are dropped. -/
def resolveForCutoff (spec : LocatorSpec) (lo hi : ℚ) (s : CutoffScale) :
    Except LocError (List ℚ) :=
  (LocatorResolver.resolve spec lo hi).map fun ticks =>
    ticks.filter fun t => decide (t ∉ s.discontinuities)

/-! ## Formatter resolution -/

/-- Errors raised by formatter resolution. -/
inductive FmtError where
  | insufficientLabels
  deriving DecidableEq, Repr

namespace FormatterResolver

/-- Modelled from the spec: `FixedList(labels)` formatter resolution — labels
are paired to resolved tick positions positionally by index.  When eagerly
paired it fails with `InsufficientLabelsError` if there are fewer labels than
resolved tick positions; otherwise labels beyond the list are left blank. -/
def resolveFixedLabels (eager : Bool) (labels : List String)
    (ticks : List ℚ) : Except FmtError (List String) :=
  if eager ∧ labels.length < ticks.length then .error .insufficientLabels
  else .ok ((List.range ticks.length).map fun i => labels.getD i "")

end FormatterResolver

lemma range_map_getD (l : List String) :
    (List.range l.length).map (fun i => l.getD i "") = l := by
  apply List.ext_getElem (by simp)
  intro i h1 h2
  simp only [List.getElem_map, List.getElem_range]
  rw [List.getD_eq_getElem?_getD, List.getElem?_eq_getElem h2]
  rfl

/-! ## Dual-axis binding -/

/-- Modelled from the spec: an axis carries its current data limits. -/
structure Axis where
  limits : ℚ × ℚ
  deriving DecidableEq, Repr

/-- Modelled from the spec: a dual axis holds only the transform mapping it
was bound with (plus a non-owning back-reference to the parent, which the
embedding passes explicitly at query time). -/
structure DualAxis where
  mapping : TransformPairQ

/-- Errors raised by dual-axis binding. -/
inductive BindError where
  | bindingError
  deriving DecidableEq, Repr

/-- Modelled from the spec: the forward mapping is monotonic over the
parent's limits, checked on sample points across the limits. -/
def monoOverLimits (f : ℚ → ℚ) (lo hi : ℚ) : Prop :=
  (f lo < f ((lo + hi) / 2) ∧ f ((lo + hi) / 2) < f hi) ∨
    (f ((lo + hi) / 2) < f lo ∧ f hi < f ((lo + hi) / 2))

instance (f : ℚ → ℚ) (lo hi : ℚ) : Decidable (monoOverLimits f lo hi) := by
  unfold monoOverLimits; infer_instance

namespace DualAxisBinder

/-- Modelled from the spec: `DualAxisBinder.bind` — construct a dual axis
from a transform mapping, failing with `BindingError` if the mapping is
non-monotonic over the parent's limits. -/
def bind (parent : Axis) (mapping : TransformPairQ) :
    Except BindError DualAxis :=
  if monoOverLimits mapping.forward parent.limits.1 parent.limits.2 then
    .ok ⟨mapping⟩
  else
    .error .bindingError

end DualAxisBinder

/-- Modelled from the spec: querying a dual axis's limits recomputes them by
applying the mapping's forward transform to the parent's current limits
endpoints (not by independently re-fitting). -/
def DualAxis.queryLimits (d : DualAxis) (parent : Axis) : ℚ × ℚ :=
  (d.mapping.forward parent.limits.1, d.mapping.forward parent.limits.2)

/-! ## Scale registry lookup with domain validation (rational side) -/

/-- Errors raised by `ScaleRegistry.build`. -/
inductive BuildError where
  | unknownScale
  | domainError
  deriving DecidableEq, Repr

/-- Modelled from the spec: a built scale record — the resolved name together
with the requested limits, which are carried through unchanged. -/
structure BuiltScale where
  name : String
  limits : ℚ × ℚ
  deriving DecidableEq, Repr

/-- Modelled from the spec: the names registered with the scale registry. -/
def registeredNames : List String :=
  ["linear", "log", "symlog", "logit", "power", "exp", "cutoff",
   "sine", "mercator", "inverse", "func", "height", "pressure"]

/-- Modelled from the spec: whether the requested limits lie inside the
scale's valid domain (`logit` strictly inside (0,1); `log`, `height` and
`inverse` require positive values; `mercator` excludes the poles; `sine`
is restricted to [-90, 90]). -/
def limitsInDomain (name : String) (lo hi : ℚ) : Prop :=
  match name with
  | "log" => 0 < lo
  | "logit" => 0 < lo ∧ hi < 1
  | "mercator" => -90 < lo ∧ hi < 90
  | "sine" => -90 ≤ lo ∧ hi ≤ 90
  | "inverse" => 0 < lo ∨ hi < 0
  | "height" => 0 < lo
  | _ => True

instance (name : String) (lo hi : ℚ) : Decidable (limitsInDomain name lo hi) := by
  unfold limitsInDomain
  split <;> infer_instance

namespace ScaleRegistry

/-- Modelled from the spec: `ScaleRegistry.build` — fails with
`UnknownScaleError` for an unregistered name, fails with `DomainError` when
the requested limits leave the scale's valid domain, and otherwise returns
the built scale with the requested limits unchanged (never silently
clamped). -/
def build (name : String) (lo hi : ℚ) : Except BuildError BuiltScale :=
  if name ∈ registeredNames then
    if limitsInDomain name lo hi then .ok ⟨name, (lo, hi)⟩
    else .error .domainError
  else .error .unknownScale

end ScaleRegistry

/-! ## Datetime locators -/

/-- Modelled from the spec: calendar units appearing in the datetime locator
claims; time is modelled in whole minutes. -/
inductive TimeUnit where
  | hour
  | minute
  deriving DecidableEq, Repr

/-- Modelled from the spec: the calendar-unit value of a time `t` given in
minutes — the hour of day, or the minute of hour. -/
def unitValue : TimeUnit → ℕ → ℕ
  | .hour, t => t / 60 % 24
  | .minute, t => t % 60

/-- Modelled from the spec: whether `t` lies on a boundary of the calendar
unit (an hour tick must land on a whole hour; minutes are the granularity of
the model). -/
def unitBoundary : TimeUnit → ℕ → Prop
  | .hour, t => t % 60 = 0
  | .minute, _ => True

instance (u : TimeUnit) (t : ℕ) : Decidable (unitBoundary u t) := by
  unfold unitBoundary
  split <;> infer_instance

/-- Modelled from the spec: a datetime `Parametrized(unit, values)` locator —
ticks at exactly the listed calendar-unit values within the limits, placed by
calendar arithmetic. -/
def dateTicksAtValues (u : TimeUnit) (vals : List ℕ) (lo hi : ℕ) : List ℕ :=
  ((List.range (hi + 1 - lo)).map fun i => lo + i).filter
    fun t => decide (unitBoundary u t ∧ unitValue u t ∈ vals)

/-! ## Registered scale transforms over ℝ

The transcendental forward/inverse maps of the registered scales, modelled
from the spec's preset table over the real numbers. -/

/-- Modelled from the spec: `TransformPair` over the reals, as owned by a
registered scale. -/
structure TransformPair where
  forward : ℝ → ℝ
  inverse : ℝ → ℝ

/-- Modelled from the spec: a registry entry — a scale name, its transform
pair, and its valid domain. -/
structure ScaleEntry where
  name : String
  pair : TransformPair
  domain : ℝ → Prop

noncomputable section

open Real

/-- Modelled from the spec: `linear` — the identity transform. -/
def linearPair : TransformPair := ⟨fun x => x, fun y => y⟩

/-- Modelled from the spec: `log(base=10)` — forward is log base 10, valid
for positive inputs. -/
def logPair : TransformPair :=
  ⟨fun x => Real.logb 10 x, fun y => (10 : ℝ) ^ y⟩

/-- Modelled from the spec: `logit` — forward is log(x/(1-x)), valid strictly
inside (0,1). -/
def logitPair : TransformPair :=
  ⟨fun x => Real.log (x / (1 - x)), fun y => Real.exp y / (1 + Real.exp y)⟩

/-- Modelled from the spec: `exp(base=e, coefficient=1)` — the default-built
exponential scale. -/
def expPair : TransformPair := ⟨Real.exp, Real.log⟩

/-- Modelled from the spec: `power(2)` — the default-built power scale on the
nonnegative half-line. -/
def powerPair : TransformPair := ⟨fun x => x ^ 2, Real.sqrt⟩

/-- Modelled from the spec: `inverse` — forward is 1/x, valid away from
zero. -/
def inversePair : TransformPair := ⟨fun x => x⁻¹, fun y => y⁻¹⟩

/-- Modelled from the spec: `symlog(base=10, linthresh=1)` — linear within
the threshold, logarithmic beyond, continuous at the boundary. -/
def symlogPair : TransformPair :=
  ⟨fun x =>
    if x < -1 then -(1 + Real.logb 10 (-x))
    else if x ≤ 1 then x
    else 1 + Real.logb 10 x,
   fun y =>
    if y < -1 then -((10 : ℝ) ^ (-y - 1))
    else if y ≤ 1 then y
    else (10 : ℝ) ^ (y - 1)⟩

/-- Modelled from the spec: `cutoff(π, 3)` — the demo cutoff scale, linear up
to π and compressed by a factor of 3 beyond it. -/
def cutoffPair : TransformPair :=
  ⟨fun x => if x ≤ π then x else π + (x - π) / 3,
   fun y => if y ≤ π then y else π + (y - π) * 3⟩

/-- Modelled from the spec: `sine` — sine of the latitude in degrees, valid
on [-90, 90]. -/
def sinePair : TransformPair :=
  ⟨fun x => Real.sin (x * π / 180),
   fun y => Real.arcsin y * 180 / π⟩

/-- Modelled from the spec: `mercator` — the Mercator projection latitude
transform artanh(sin(θ)), valid strictly inside (-90, 90) degrees. -/
def mercatorPair : TransformPair :=
  ⟨fun x => Real.log ((1 + Real.sin (x * π / 180)) / (1 - Real.sin (x * π / 180))) / 2,
   fun y => Real.arcsin ((Real.exp (2 * y) - 1) / (Real.exp (2 * y) + 1)) * 180 / π⟩

/-- Modelled from the spec: the atmospheric scale height (km) shared by the
`height` and `pressure` presets. -/
def scaleHeight : ℝ := 7

/-- Modelled from the spec: the reference pressure (hPa) shared by the
`height` and `pressure` presets. -/
def refPressure : ℝ := 1013.25

/-- Modelled from the spec: the `height` preset's forward transform — height
above ground from pressure, with the fixed scale height. -/
def heightForward (p : ℝ) : ℝ := -scaleHeight * Real.log (p / refPressure)

/-- Modelled from the spec: the `pressure` preset's forward transform —
pressure from height, with the fixed scale height. -/
def pressureForward (z : ℝ) : ℝ := refPressure * Real.exp (-z / scaleHeight)

/-- Modelled from the spec: the `height` preset's transform pair, valid for
positive pressure. -/
def heightPair : TransformPair := ⟨heightForward, pressureForward⟩

/-- Modelled from the spec: the `pressure` preset's transform pair. -/
def pressurePair : TransformPair := ⟨pressureForward, heightForward⟩

/-- Modelled from the spec: the scale registry — every registered scale with
its transform pair and valid domain. -/
def scaleRegistry : List ScaleEntry :=
  [⟨"linear", linearPair, fun _ => True⟩,
   ⟨"log", logPair, fun x => 0 < x⟩,
   ⟨"symlog", symlogPair, fun _ => True⟩,
   ⟨"logit", logitPair, fun x => 0 < x ∧ x < 1⟩,
   ⟨"power", powerPair, fun x => 0 ≤ x⟩,
   ⟨"exp", expPair, fun _ => True⟩,
   ⟨"cutoff", cutoffPair, fun _ => True⟩,
   ⟨"sine", sinePair, fun x => -90 ≤ x ∧ x ≤ 90⟩,
   ⟨"mercator", mercatorPair, fun x => -90 < x ∧ x < 90⟩,
   ⟨"inverse", inversePair, fun x => x ≠ 0⟩,
   ⟨"height", heightPair, fun p => 0 < p⟩,
   ⟨"pressure", pressurePair, fun _ => True⟩]

lemma linear_roundtrip (x : ℝ) : linearPair.inverse (linearPair.forward x) = x := rfl

lemma log_roundtrip {x : ℝ} (hx : 0 < x) :
    logPair.inverse (logPair.forward x) = x := by
  simp only [logPair]
  exact Real.rpow_logb (by norm_num) (by norm_num) hx

lemma logit_roundtrip {x : ℝ} (h0 : 0 < x) (h1 : x < 1) :
    logitPair.inverse (logitPair.forward x) = x := by
  simp only [logitPair]
  have hd : (0 : ℝ) < 1 - x := by linarith
  have hpos : 0 < x / (1 - x) := div_pos h0 hd
  rw [Real.exp_log hpos]
  field_simp

lemma exp_roundtrip (x : ℝ) : expPair.inverse (expPair.forward x) = x := by
  simp only [expPair]
  exact Real.log_exp x

lemma power_roundtrip {x : ℝ} (hx : 0 ≤ x) :
    powerPair.inverse (powerPair.forward x) = x := by
  simp only [powerPair]
  exact Real.sqrt_sq hx

lemma inverse_roundtrip (x : ℝ) :
    inversePair.inverse (inversePair.forward x) = x := inv_inv x

lemma cutoff_roundtrip (x : ℝ) :
    cutoffPair.inverse (cutoffPair.forward x) = x := by
  simp only [cutoffPair]
  rcases le_or_lt x π with hx | hx
  · rw [if_pos hx, if_pos hx]
  · have h2 : ¬ (π + (x - π) / 3 ≤ π) := by
      push_neg
      linarith
    rw [if_neg (not_le.mpr hx), if_neg h2]
    ring

lemma sine_roundtrip {x : ℝ} (hl : -90 ≤ x) (hr : x ≤ 90) :
    sinePair.inverse (sinePair.forward x) = x := by
  simp only [sinePair]
  have hpi := Real.pi_pos
  have h1 : -(π / 2) ≤ x * π / 180 := by nlinarith
  have h2 : x * π / 180 ≤ π / 2 := by nlinarith
  rw [Real.arcsin_sin h1 h2]
  field_simp

lemma symlog_roundtrip (x : ℝ) :
    symlogPair.inverse (symlogPair.forward x) = x := by
  simp only [symlogPair]
  by_cases h1 : x < -1
  · have hx : (1 : ℝ) < -x := by linarith
    have hL : 0 < Real.logb 10 (-x) := Real.logb_pos (by norm_num) hx
    rw [if_pos h1, if_pos (by linarith : -(1 + Real.logb 10 (-x)) < -1),
      show -(-(1 + Real.logb 10 (-x))) - 1 = Real.logb 10 (-x) by ring,
      Real.rpow_logb (by norm_num) (by norm_num) (by linarith : (0 : ℝ) < -x)]
    ring
  · by_cases h2 : x ≤ 1
    · rw [if_neg h1, if_pos h2, if_neg h1, if_pos h2]
    · have hx : (1 : ℝ) < x := by push_neg at h2; exact h2
      have hL : 0 < Real.logb 10 x := Real.logb_pos (by norm_num) hx
      rw [if_neg h1, if_neg h2,
        if_neg (by push_neg; linarith : ¬(1 + Real.logb 10 x < -1)),
        if_neg (by push_neg; linarith : ¬(1 + Real.logb 10 x ≤ 1)),
        show 1 + Real.logb 10 x - 1 = Real.logb 10 x by ring,
        Real.rpow_logb (by norm_num) (by norm_num) (by linarith)]

lemma mercator_roundtrip {x : ℝ} (hl : -90 < x) (hr : x < 90) :
    mercatorPair.inverse (mercatorPair.forward x) = x := by
  simp only [mercatorPair]
  have hpi := Real.pi_pos
  have hθl : -(π / 2) < x * π / 180 := by nlinarith
  have hθr : x * π / 180 < π / 2 := by nlinarith
  have ht2 : Real.sin (x * π / 180) < 1 := by
    have := Real.strictMonoOn_sin
      (Set.mem_Icc.mpr ⟨le_of_lt hθl, le_of_lt hθr⟩)
      (Set.mem_Icc.mpr ⟨by linarith, le_refl _⟩) hθr
    rwa [Real.sin_pi_div_two] at this
  have ht1 : -1 < Real.sin (x * π / 180) := by
    have := Real.strictMonoOn_sin
      (Set.mem_Icc.mpr ⟨le_refl _, by linarith⟩)
      (Set.mem_Icc.mpr ⟨le_of_lt hθl, le_of_lt hθr⟩) hθl
    rwa [Real.sin_neg, Real.sin_pi_div_two] at this
  have hd : (0 : ℝ) < 1 - Real.sin (x * π / 180) := by linarith
  have hn : (0 : ℝ) < 1 + Real.sin (x * π / 180) := by linarith
  have hrpos : 0 < (1 + Real.sin (x * π / 180)) / (1 - Real.sin (x * π / 180)) :=
    div_pos hn hd
  rw [show 2 * (Real.log ((1 + Real.sin (x * π / 180)) /
      (1 - Real.sin (x * π / 180))) / 2) =
      Real.log ((1 + Real.sin (x * π / 180)) / (1 - Real.sin (x * π / 180))) by
    ring, Real.exp_log hrpos]
  have hq : ((1 + Real.sin (x * π / 180)) / (1 - Real.sin (x * π / 180)) - 1) /
      ((1 + Real.sin (x * π / 180)) / (1 - Real.sin (x * π / 180)) + 1) =
      Real.sin (x * π / 180) := by
    rw [div_sub_one (ne_of_gt hd), div_add_one (ne_of_gt hd), div_div_div_cancel_right₀]
    · rw [show 1 + Real.sin (x * π / 180) - (1 - Real.sin (x * π / 180)) =
        2 * Real.sin (x * π / 180) by ring,
        show 1 + Real.sin (x * π / 180) + (1 - Real.sin (x * π / 180)) = 2 by ring]
      ring
    · exact ne_of_gt hd
  rw [hq, Real.arcsin_sin (le_of_lt hθl) (le_of_lt hθr)]
  field_simp

lemma pressure_height_roundtrip {p : ℝ} (hp : 0 < p) :
    pressureForward (heightForward p) = p := by
  unfold pressureForward heightForward scaleHeight refPressure
  rw [show -(-7 * Real.log (p / 1013.25)) / 7 = Real.log (p / 1013.25) by ring,
    Real.exp_log (by positivity)]
  field_simp

lemma height_pressure_roundtrip (z : ℝ) :
    heightForward (pressureForward z) = z := by
  unfold heightForward pressureForward scaleHeight refPressure
  rw [mul_div_cancel_left₀ _ (by norm_num : (1013.25 : ℝ) ≠ 0), Real.log_exp]
  ring

end

/-! ## Shared helper lemmas -/

lemma niceStep_pos {s : ℚ} (hs : IsNiceStep s) : 0 < s := by
  obtain ⟨k, hk⟩ := hs
  have := pow10_pos k
  rcases hk with rfl | rfl | rfl <;> linarith

lemma multiplesIn_step30 : multiplesIn 30 0 200 = [0, 30, 60, 90, 120, 150, 180] := by
  have h1 : (⌈(0 : ℚ) / 30⌉ : ℤ) = 0 := by norm_num
  have h2 : (⌊(200 : ℚ) / 30⌋ : ℤ) = 6 := by norm_num [Int.floor_eq_iff]
  have h3 : List.range (6 - 0 + 1 : ℤ).toNat = [0, 1, 2, 3, 4, 5, 6] := rfl
  rw [multiplesIn, h1, h2, h3]
  norm_num

/-! ## Claim theorems -/

/-- Claim C5: for every `Numeric(step)` locator spec and valid limits,
`LocatorResolver.resolve` returns exactly the multiples of `step` lying within
the limits, including an endpoint when it lands exactly on a multiple; over
limits (0,200) with step 30 the result is [0,30,60,90,120,150,180] (0
included, 200 excluded since not a multiple). -/
theorem numeric_locator_exact_multiples :
    (∀ step lo hi : ℚ, 0 < step → lo < hi →
      ∃ ticks, LocatorResolver.resolve (.numeric step) lo hi = .ok ticks ∧
        ∀ x : ℚ, x ∈ ticks ↔ (∃ k : ℤ, x = k * step) ∧ lo ≤ x ∧ x ≤ hi) ∧
    LocatorResolver.resolve (.numeric 30) 0 200 =
      .ok [0, 30, 60, 90, 120, 150, 180] := by
  constructor
  · intro step lo hi hstep hlim
    refine ⟨multiplesIn step lo hi, ?_, fun x => mem_multiplesIn hstep⟩
    unfold LocatorResolver.resolve
    rw [if_neg (not_le.mpr hlim)]
  · unfold LocatorResolver.resolve
    rw [if_neg (by norm_num)]
    show Except.ok (multiplesIn 30 0 200) = _
    rw [multiplesIn_step30]

/-- Witness for C5: the general characterization instantiated at step 30 over
(0,200) — 60 (a multiple in range) is ticked while 45 (not a multiple) is
not. -/
theorem numeric_locator_exact_multiples_witness :
    (60 : ℚ) ∈ multiplesIn 30 0 200 ∧ (45 : ℚ) ∉ multiplesIn 30 0 200 := by
  obtain ⟨ticks, h1, h2⟩ :=
    numeric_locator_exact_multiples.1 30 0 200 (by norm_num) (by norm_num)
  have ht : ticks = multiplesIn 30 0 200 := by
    unfold LocatorResolver.resolve at h1
    rw [if_neg (by norm_num)] at h1
    exact (Except.ok.inj h1).symm
  subst ht
  refine ⟨(h2 60).mpr ⟨⟨2, by norm_num⟩, by norm_num, by norm_num⟩, ?_⟩
  intro hmem
  obtain ⟨⟨k, hk⟩, -, -⟩ := (h2 45).mp hmem
  have h3 : ((2 * k : ℤ) : ℚ) = 3 := by push_cast; linarith
  have h4 : (2 * k : ℤ) = 3 := by exact_mod_cast h3
  omega

/-- Claim C6 (counterexample): with limits (0,10) and n = 20 the `maxn`
resolver picks step 1/2 and returns 21 = n + 1 ticks, refuting "at most n";
and 1 is a nice step satisfying (max-min)/step ≤ n yet is larger than the
chosen step 1/2, refuting "the chosen step is the largest such nice step". -/
theorem maxn_claim_counterexample :
    LocatorResolver.resolve (.maxn 20) 0 10 = .ok (multiplesIn (1 / 2) 0 10) ∧
    (multiplesIn ((1 : ℚ) / 2) 0 10).length = 21 ∧
    IsNiceStep 1 ∧ ((10 : ℚ) - 0) / 1 ≤ 20 ∧
    chooseNiceStep (((10 : ℚ) - 0) / ((20 : ℕ) : ℚ)) = 1 / 2 ∧
    ((1 : ℚ) / 2) < 1 := by
  have harg : ((10 : ℚ) - 0) / ((20 : ℕ) : ℚ) = 1 / 2 := by norm_num
  have hchoose : chooseNiceStep (((10 : ℚ) - 0) / ((20 : ℕ) : ℚ)) = 1 / 2 := by
    rw [harg]
    exact chooseNiceStep_half
  refine ⟨?_, ?_, ⟨0, Or.inl (by norm_num [pow10])⟩, by norm_num, hchoose,
    by norm_num⟩
  · unfold LocatorResolver.resolve
    rw [if_neg (by norm_num)]
    show Except.ok (multiplesIn (chooseNiceStep (((10 : ℚ) - 0) / ((20 : ℕ) : ℚ))) 0 10) = _
    rw [hchoose]
  · have h1 : (⌈(0 : ℚ) / (1 / 2)⌉ : ℤ) = 0 := by norm_num
    have h2 : (⌊(10 : ℚ) / (1 / 2)⌋ : ℤ) = 20 := by norm_num [Int.floor_eq_iff]
    rw [multiplesIn, List.length_map, List.length_range, h1, h2]
    rfl

/-- Claim C6 (amended): for every `maxn n` locator spec and valid limits, the
resolver returns at most n+1 tick positions, each a multiple of a nice step
of the form {1,2,5} times a power of 10, where the chosen step is the
SMALLEST nice step satisfying (limits.max - limits.min) / step ≤ n. -/
theorem maxn_locator_amended (n : ℕ) (lo hi : ℚ) (hn : 0 < n) (hlim : lo < hi) :
    ∃ ticks, LocatorResolver.resolve (.maxn n) lo hi = .ok ticks ∧
      ticks.length ≤ n + 1 ∧
      IsNiceStep (chooseNiceStep ((hi - lo) / (n : ℚ))) ∧
      (hi - lo) / chooseNiceStep ((hi - lo) / (n : ℚ)) ≤ n ∧
      (∀ s : ℚ, IsNiceStep s → (hi - lo) / s ≤ n →
        chooseNiceStep ((hi - lo) / (n : ℚ)) ≤ s) ∧
      ∀ x ∈ ticks, ∃ k : ℤ, x = k * chooseNiceStep ((hi - lo) / (n : ℚ)) := by
  have hspan : 0 < hi - lo := by linarith
  have hnQ : (0 : ℚ) < n := by exact_mod_cast hn
  have hq : 0 < (hi - lo) / (n : ℚ) := div_pos hspan hnQ
  have hc : 0 < chooseNiceStep ((hi - lo) / (n : ℚ)) := chooseNiceStep_pos _
  have hqc : (hi - lo) / (n : ℚ) ≤ chooseNiceStep ((hi - lo) / (n : ℚ)) :=
    le_chooseNiceStep
  have hbound : (hi - lo) / chooseNiceStep ((hi - lo) / (n : ℚ)) ≤ n := by
    rw [div_le_iff₀ hc]
    calc hi - lo ≤ chooseNiceStep ((hi - lo) / (n : ℚ)) * n :=
          (div_le_iff₀ hnQ).mp hqc
      _ = (n : ℚ) * chooseNiceStep ((hi - lo) / (n : ℚ)) := by ring
  refine ⟨multiplesIn (chooseNiceStep ((hi - lo) / (n : ℚ))) lo hi, ?_,
    length_multiplesIn hbound, chooseNiceStep_nice _, hbound, ?_, ?_⟩
  · unfold LocatorResolver.resolve
    rw [if_neg (not_le.mpr hlim)]
  · intro s hs hsb
    have hspos := niceStep_pos hs
    apply chooseNiceStep_min hq hs
    rw [div_le_iff₀ hnQ]
    calc hi - lo ≤ (n : ℚ) * s := (div_le_iff₀ hspos).mp hsb
      _ = s * n := by ring
  · intro x hx
    exact ((mem_multiplesIn hc).mp hx).1

/-- Witness for C6 (amended): the amended bound instantiated at n = 20 over
(0,10): the resolved ticks number at most 21. -/
theorem maxn_locator_amended_witness :
    (multiplesIn (chooseNiceStep (((10 : ℚ) - 0) / ((20 : ℕ) : ℚ))) 0 10).length
      ≤ 21 := by
  obtain ⟨ticks, h1, h2, -, -, -, -⟩ :=
    maxn_locator_amended 20 0 10 (by norm_num) (by norm_num)
  have ht : ticks =
      multiplesIn (chooseNiceStep (((10 : ℚ) - 0) / ((20 : ℕ) : ℚ))) 0 10 := by
    unfold LocatorResolver.resolve at h1
    rw [if_neg (by norm_num)] at h1
    exact (Except.ok.inj h1).symm
  rw [← ht]
  exact h2

/-- Claim C3: `make_from_functions` validates the round-trip invariant on at
least 3 sample points spanning the current limits and fails with
`InvalidTransformError` exactly when the invariant is violated beyond
tolerance; with only a forward function the inverse is derived by numerical
monotonic root-finding, and construction fails with `NonInvertibleError` if
and only if the forward function is not monotonic over the sampled domain. -/
theorem make_from_functions_validation :
    (∀ lo hi : ℚ, 3 ≤ (samplePoints lo hi).length ∧
      (samplePoints lo hi).head? = some lo ∧
      (samplePoints lo hi).getLast? = some hi) ∧
    (∀ (f g : ℚ → ℚ) (lo hi : ℚ),
      make_from_functions f (some g) lo hi = .error .invalidTransform ↔
        ¬ ∀ s ∈ samplePoints lo hi, relClose (g (f s)) s) ∧
    (∀ (f : ℚ → ℚ) (lo hi : ℚ),
      make_from_functions f none lo hi = .error .nonInvertible ↔
        ¬ monoOnSamples f lo hi) ∧
    (∀ (f : ℚ → ℚ) (lo hi : ℚ), monoOnSamples f lo hi →
      make_from_functions f none lo hi = .ok ⟨f, numericInverse f lo hi⟩) := by
  refine ⟨fun lo hi => ⟨by simp [samplePoints], rfl, rfl⟩, ?_, ?_, ?_⟩
  · intro f g lo hi
    have hred : make_from_functions f (some g) lo hi =
        if ((samplePoints lo hi).all fun s => decide (relClose (g (f s)) s)) then
          Except.ok ⟨f, g⟩
        else Except.error TransformError.invalidTransform := rfl
    rw [hred]
    split_ifs with h
    · constructor
      · intro contra
        exact contra.elim
      · intro hneg
        exfalso
        apply hneg
        intro s hs
        exact of_decide_eq_true (List.all_eq_true.mp h s hs)
    · refine iff_of_true rfl ?_
      intro hall
      apply h
      rw [List.all_eq_true]
      intro s hs
      exact decide_eq_true (hall s hs)
  · intro f lo hi
    have hred : make_from_functions f none lo hi =
        if monoOnSamples f lo hi then Except.ok ⟨f, numericInverse f lo hi⟩
        else Except.error TransformError.nonInvertible := rfl
    rw [hred]
    split_ifs with h
    · exact iff_of_false (fun contra => contra.elim) (fun hneg => hneg h)
    · exact iff_of_true rfl h
  · intro f lo hi h
    have hred : make_from_functions f none lo hi =
        if monoOnSamples f lo hi then Except.ok ⟨f, numericInverse f lo hi⟩
        else Except.error TransformError.nonInvertible := rfl
    rw [hred, if_pos h]

/-- Witness for C3: a constant forward function with no supplied inverse is
rejected with `NonInvertibleError`, while the identity (monotonic on the
samples) is accepted with the root-finding inverse. -/
theorem make_from_functions_validation_witness :
    make_from_functions (fun _ => (0 : ℚ)) none 0 2 = .error .nonInvertible ∧
    make_from_functions (fun q : ℚ => q) none 0 2 =
      .ok ⟨fun q : ℚ => q, numericInverse (fun q : ℚ => q) 0 2⟩ := by
  constructor
  · apply (make_from_functions_validation.2.2.1 (fun _ => (0 : ℚ)) 0 2).mpr
    unfold monoOnSamples samplePoints
    simp [List.chain'_cons]
  · apply make_from_functions_validation.2.2.2 (fun q : ℚ => q) 0 2
    unfold monoOnSamples samplePoints
    left
    simp only [List.chain'_cons, List.chain'_singleton, and_true]
    norm_num

/-- Claim C4: for every cutoff scale built with a discrete-jump segment, the
locator machinery never returns a tick position exactly equal to the
discontinuity location, even when a numeric step locator's multiples would
otherwise land there. -/
theorem cutoff_jump_never_ticked (segs : List CutoffSeg) (s : CutoffScale)
    (_hbuild : buildCutoff segs = .ok s) (d : ℚ) (hd : d ∈ s.discontinuities)
    (spec : LocatorSpec) (lo hi : ℚ) (ticks : List ℚ)
    (hres : resolveForCutoff spec lo hi s = .ok ticks) : d ∉ ticks := by
  unfold resolveForCutoff at hres
  cases hr : LocatorResolver.resolve spec lo hi with
  | error e =>
    rw [hr] at hres
    exact Except.noConfusion hres
  | ok base =>
    rw [hr] at hres
    have hticks : ticks = base.filter fun t => decide (t ∉ s.discontinuities) :=
      (Except.ok.inj hres).symm
    subst hticks
    intro hmem
    rw [List.mem_filter] at hmem
    exact of_decide_eq_true hmem.2 hd

/-- Witness for C4: the demo-style cutoff scale with a discrete jump at 3
(and resumption at 9) built from its segments; a step-1 numeric locator over
(0,12) would tick 3, yet the cutoff-aware resolution drops it. -/
theorem cutoff_jump_never_ticked_witness :
    (3 : ℚ) ∉ ((multiplesIn 1 0 12).filter fun t =>
      decide (t ∉ (CutoffScale.mk
        [⟨3, .inf⟩, ⟨9, .finite 1⟩]).discontinuities)) ∧
    (3 : ℚ) ∈ multiplesIn 1 0 12 := by
  constructor
  · apply cutoff_jump_never_ticked [⟨3, .inf⟩, ⟨9, .finite 1⟩]
      ⟨[⟨3, .inf⟩, ⟨9, .finite 1⟩]⟩ ?_ 3 ?_ (.numeric 1) 0 12 _ ?_
    · unfold buildCutoff
      rw [if_pos]
      simp only [List.chain'_cons, List.chain'_singleton, and_true]
      norm_num
    · simp [CutoffScale.discontinuities]
    · unfold resolveForCutoff LocatorResolver.resolve
      rw [if_neg (by norm_num)]
      rfl
  · rw [mem_multiplesIn (by norm_num)]
    exact ⟨⟨3, by norm_num⟩, by norm_num, by norm_num⟩

/-- Claim C8: for every `FixedList(labels)` formatter spec, labels are
assigned to resolved tick positions positionally by index; with exactly as
many labels as ticks the output labels appear in position order, and with
fewer labels than resolved ticks the resolver fails with
`InsufficientLabelsError` when eagerly paired. -/
theorem fixed_labels_positional (labels : List String) (ticks : List ℚ) :
    (labels.length = ticks.length →
      FormatterResolver.resolveFixedLabels true labels ticks = .ok labels) ∧
    (labels.length < ticks.length →
      FormatterResolver.resolveFixedLabels true labels ticks =
        .error .insufficientLabels) := by
  constructor
  · intro h
    unfold FormatterResolver.resolveFixedLabels
    rw [if_neg (by rintro ⟨-, hlt⟩; omega), ← h, range_map_getD]
  · intro h
    unfold FormatterResolver.resolveFixedLabels
    rw [if_pos ⟨rfl, h⟩]

/-- Witness for C8: five labels paired with the five ticks of the demo
(multiples of 1/2 over (-1.01, 1)) come out positionally, in order. -/
theorem fixed_labels_positional_witness :
    FormatterResolver.resolveFixedLabels true ["a", "b", "c", "d", "e"]
      [-1, -1/2, 0, 1/2, 1] = .ok ["a", "b", "c", "d", "e"] :=
  (fixed_labels_positional ["a", "b", "c", "d", "e"] [-1, -1/2, 0, 1/2, 1]).1 rfl

/-- The Kelvin-to-Celsius mapping of the dual-axis demo. -/
def celsiusMapping : TransformPairQ :=
  ⟨fun x => x - 273.15, fun y => y + 273.15⟩

/-- Claim C2: for every dual axis produced by `DualAxisBinder.bind`, its
limits equal `mapping.forward` applied to the parent's limits endpoints, and
whenever the parent's limits change, re-querying the dual axis yields the
forward-mapped new endpoints without re-binding. -/
theorem dual_axis_limits_follow_parent (parent : Axis) (m : TransformPairQ)
    (d : DualAxis) (hbind : DualAxisBinder.bind parent m = .ok d) :
    d.queryLimits parent = (m.forward parent.limits.1, m.forward parent.limits.2) ∧
    ∀ parent2 : Axis, d.queryLimits parent2 =
      (m.forward parent2.limits.1, m.forward parent2.limits.2) := by
  have hd : d = ⟨m⟩ := by
    unfold DualAxisBinder.bind at hbind
    split_ifs at hbind with h
    exact (Except.ok.inj hbind).symm
  subst hd
  exact ⟨rfl, fun _ => rfl⟩

/-- Witness for C2: binding `x - 273.15` onto a parent with limits (200,300)
succeeds, querying gives (-73.15, 26.85), and after the parent's limits
change to (250,350), re-querying the same dual axis gives (-23.15, 76.85). -/
theorem dual_axis_limits_follow_parent_witness :
    DualAxisBinder.bind ⟨(200, 300)⟩ celsiusMapping = .ok ⟨celsiusMapping⟩ ∧
    DualAxis.queryLimits ⟨celsiusMapping⟩ ⟨(200, 300)⟩ = (-73.15, 26.85) ∧
    DualAxis.queryLimits ⟨celsiusMapping⟩ ⟨(250, 350)⟩ = (-23.15, 76.85) := by
  have hbind : DualAxisBinder.bind ⟨(200, 300)⟩ celsiusMapping =
      .ok ⟨celsiusMapping⟩ := by
    unfold DualAxisBinder.bind
    rw [if_pos]
    unfold monoOverLimits celsiusMapping
    norm_num
  have h := dual_axis_limits_follow_parent ⟨(200, 300)⟩ celsiusMapping
    ⟨celsiusMapping⟩ hbind
  refine ⟨hbind, ?_, ?_⟩
  · rw [h.1]
    unfold celsiusMapping
    norm_num
  · rw [h.2 ⟨(250, 350)⟩]
    unfold celsiusMapping
    norm_num

/-- Claim C7: `ScaleRegistry.build "logit"` with requested limits that
include 0 or 1 fails with `DomainError`; a successful build keeps the
requested limits unchanged (never silently clamped) and implies they lie
strictly inside (0,1). -/
theorem logit_build_rejects_boundary :
    (∀ lo hi : ℚ, lo ≤ 0 ∨ 1 ≤ hi →
      ScaleRegistry.build "logit" lo hi = .error .domainError) ∧
    (∀ lo hi : ℚ, ∀ s : BuiltScale, ScaleRegistry.build "logit" lo hi = .ok s →
      s.limits = (lo, hi) ∧ 0 < lo ∧ hi < 1) := by
  constructor
  · intro lo hi h
    unfold ScaleRegistry.build
    rw [if_pos (by simp [registeredNames]), if_neg]
    show ¬ (0 < lo ∧ hi < 1)
    rintro ⟨h1, h2⟩
    rcases h with h | h <;> linarith
  · intro lo hi s hs
    unfold ScaleRegistry.build at hs
    rw [if_pos (by simp [registeredNames])] at hs
    by_cases hdom : limitsInDomain "logit" lo hi
    · rw [if_pos hdom] at hs
      have : s = ⟨"logit", (lo, hi)⟩ := (Except.ok.inj hs).symm
      subst this
      exact ⟨rfl, hdom⟩
    · rw [if_neg hdom] at hs
      exact absurd hs (by simp)

/-- Witness for C7: building the logit scale over the closed interval (0,1)
is rejected with `DomainError`. -/
theorem logit_build_rejects_boundary_witness :
    ScaleRegistry.build "logit" 0 1 = .error .domainError :=
  logit_build_rejects_boundary.1 0 1 (Or.inl le_rfl)

/-- Claim C10: a datetime `Parametrized(unit, values)` locator with a
sequence of unit values places ticks exactly at the listed calendar-unit
values within the limits — a time is ticked iff it lies within the limits, on
a boundary of the unit, with its unit value among those listed — not at
every Nth unit. -/
theorem datetime_list_locator_exact (u : TimeUnit) (vals : List ℕ)
    (lo hi t : ℕ) :
    t ∈ dateTicksAtValues u vals lo hi ↔
      lo ≤ t ∧ t ≤ hi ∧ unitBoundary u t ∧ unitValue u t ∈ vals := by
  unfold dateTicksAtValues
  rw [List.mem_filter]
  simp only [List.mem_map, List.mem_range, decide_eq_true_eq]
  constructor
  · rintro ⟨⟨i, hilt, rfl⟩, hb, hv⟩
    exact ⟨Nat.le_add_right lo i, by omega, hb, hv⟩
  · rintro ⟨h1, h2, hb, hv⟩
    exact ⟨⟨t - lo, by omega, by omega⟩, hb, hv⟩

/-- Witness for C10: the hour-list locator over the half-day (0,720) in
minutes with hours [0,5,7] ticks minute 300 (hour 5) but not minute 120
(hour 2), even though an every-2nd-hour reading would tick hour 2. -/
theorem datetime_list_locator_exact_witness :
    300 ∈ dateTicksAtValues .hour [0, 5, 7] 0 720 ∧
    120 ∉ dateTicksAtValues .hour [0, 5, 7] 0 720 := by
  constructor
  · rw [datetime_list_locator_exact]
    refine ⟨by norm_num, by norm_num, ?_, ?_⟩
    · show 300 % 60 = 0
      norm_num
    · show 300 / 60 % 24 ∈ [0, 5, 7]
      norm_num
  · rw [datetime_list_locator_exact]
    rintro ⟨-, -, -, hv⟩
    have : (120 : ℕ) / 60 % 24 = 2 := by norm_num
    rw [show unitValue .hour 120 = 2 from this] at hv
    simp at hv

/-- Claim C1: for every registered scale and every x in that scale's valid
domain, the scale's transform pair satisfies inverse(forward(x)) = x exactly
(hence within 1e-9 relative tolerance), and a pair violating the round-trip
invariant is rejected at construction time with `InvalidTransformError`
rather than accepted. -/
theorem registry_roundtrip_and_fail_fast :
    (∀ e ∈ scaleRegistry, ∀ x : ℝ, e.domain x →
      e.pair.inverse (e.pair.forward x) = x) ∧
    (∀ (f g : ℚ → ℚ) (lo hi : ℚ),
      (∃ s ∈ samplePoints lo hi, ¬ relClose (g (f s)) s) →
      make_from_functions f (some g) lo hi = .error .invalidTransform) := by
  constructor
  · intro e he x hx
    simp only [scaleRegistry, List.mem_cons, List.not_mem_nil, or_false] at he
    rcases he with rfl | rfl | rfl | rfl | rfl | rfl | rfl | rfl | rfl | rfl | rfl | rfl
    · exact linear_roundtrip x
    · exact log_roundtrip hx
    · exact symlog_roundtrip x
    · exact logit_roundtrip hx.1 hx.2
    · exact power_roundtrip hx
    · exact exp_roundtrip x
    · exact cutoff_roundtrip x
    · exact sine_roundtrip hx.1 hx.2
    · exact mercator_roundtrip hx.1 hx.2
    · exact inverse_roundtrip x
    · exact pressure_height_roundtrip hx
    · exact height_pressure_roundtrip x
  · rintro f g lo hi ⟨s, hs, hviol⟩
    have hred : make_from_functions f (some g) lo hi =
        if ((samplePoints lo hi).all fun t => decide (relClose (g (f t)) t)) then
          Except.ok ⟨f, g⟩
        else Except.error TransformError.invalidTransform := rfl
    rw [hred, if_neg]
    intro hall
    exact hviol (of_decide_eq_true (List.all_eq_true.mp hall s hs))

/-- Witness for C1: the linear registry entry round-trips at x = 1, and a
broken pair (forward identity, claimed inverse adding 1) is rejected at
construction over limits (0,2). -/
theorem registry_roundtrip_and_fail_fast_witness :
    linearPair.inverse (linearPair.forward 1) = 1 ∧
    make_from_functions (fun q : ℚ => q) (some fun q : ℚ => q + 1) 0 2 =
      .error .invalidTransform := by
  constructor
  · exact registry_roundtrip_and_fail_fast.1
      ⟨"linear", linearPair, fun _ => True⟩ (by simp [scaleRegistry]) 1 trivial
  · exact registry_roundtrip_and_fail_fast.2 (fun q : ℚ => q)
      (fun q : ℚ => q + 1) 0 2
      ⟨0, by simp [samplePoints], by norm_num [relClose, tol]⟩

/-- Claim C9: the scale registry contains, beyond the spec's minimum preset
list, registered names "height" and "pressure" (atmospheric transforms with
a fixed scale height), and their forward transforms are mutual inverses, so
height/pressure dual-axis bindings produce consistent, round-tripping
coordinate mappings. -/
theorem height_pressure_mutual_inverse :
    (∃ e ∈ scaleRegistry, e.name = "height" ∧ e.pair = heightPair) ∧
    (∃ e ∈ scaleRegistry, e.name = "pressure" ∧ e.pair = pressurePair) ∧
    (∀ p : ℝ, 0 < p → pressureForward (heightForward p) = p) ∧
    (∀ z : ℝ, heightForward (pressureForward z) = z) :=
  ⟨⟨⟨"height", heightPair, fun p => 0 < p⟩, by simp [scaleRegistry], rfl, rfl⟩,
   ⟨⟨"pressure", pressurePair, fun _ => True⟩, by simp [scaleRegistry], rfl, rfl⟩,
   fun _ hp => pressure_height_roundtrip hp, fun z => height_pressure_roundtrip z⟩

/-- Witness for C9: the mutual-inverse identity instantiated at pressure
500 hPa. -/
theorem height_pressure_mutual_inverse_witness :
    pressureForward (heightForward 500) = 500 :=
  height_pressure_mutual_inverse.2.2.1 500 (by norm_num)

end AxisSpec
